import Mathlib

/-!
Shallow embedding of the body-marking tool (src/deep.py) and proofs of the
specified properties of its Image Loader, Renderer, Marker Store and Entry
Exporter.

Modelling conventions:
* an RGBA raster image is a pair of dimensions together with a pixel map;
* `draw.ellipse((x - r, y - r, x + r, y + r), fill)` paints the filled disc of
  radius `r` centred at `(x, y)`, clipped to the image bounds;
* the Streamlit session state is the record of the two session lists
  (`st.session_state.dots`, `st.session_state.entries`);
* the directory listing and the PIL image decoder are parameters of the
  image loader (`decode f = none` models a decode exception);
* a PNG byte buffer is modelled by the image content it encodes (PNG is a
  lossless, deterministic serialisation, `entry_image.save(img_io, format="PNG")`
  at src/deep.py:58).
-/

namespace BodyMark

/-- RGBA colour value, as used by a PIL image in RGBA mode. -/
structure Color where
  r : Nat
  g : Nat
  b : Nat
  a : Nat
deriving DecidableEq, Repr

/-- PIL named colour "red" (fill of committed dots, src/deep.py:39). -/
def red : Color := ⟨255, 0, 0, 255⟩

/-- PIL named colour "blue" (fill of the preview dot, src/deep.py:42). -/
def blue : Color := ⟨0, 0, 255, 255⟩

/-- PIL named colour "white" (fallback canvas fill, src/deep.py:23). -/
def white : Color := ⟨255, 255, 255, 255⟩

/-- Raster image: width, height and a pixel map. -/
structure Image where
  width : Nat
  height : Nat
  pix : Nat → Nat → Color

/-- Model of `Image.new(mode, (w, h), color)`: a constant canvas. -/
def Image.new (w h : Nat) (c : Color) : Image := ⟨w, h, fun _ _ => c⟩

/-- Pixel position (x, y), as produced by the coordinate sliders. -/
abbrev Point := Nat × Nat

/-- Squared Euclidean distance between two pixel positions. -/
def dist2 (p q : Point) : Int :=
  ((p.1 : Int) - q.1) ^ 2 + ((p.2 : Int) - q.2) ^ 2

/-- Membership in the filled disc of radius `r` around `c`: the pixels painted
by `draw.ellipse((x - r, y - r, x + r, y + r), fill)` for `c = (x, y)`. -/
def inDisk (c : Point) (r : Nat) (p : Point) : Prop :=
  dist2 p c ≤ (r : Int) ^ 2

instance (c : Point) (r : Nat) (p : Point) : Decidable (inDisk c r p) :=
  inferInstanceAs (Decidable (_ ≤ _))

/-- Model of one `draw.ellipse(..., fill=col)` call (src/deep.py:39 and 42):
paint every in-bounds pixel of the disc of radius `r` centred at `c` with
`col`; every other pixel keeps its value (PIL clips drawing to the canvas). -/
def drawDisk (img : Image) (c : Point) (r : Nat) (col : Color) : Image :=
  { img with
    pix := fun px py =>
      if px < img.width ∧ py < img.height ∧ inDisk c r (px, py) then col
      else img.pix px py }

/-- Renderer `get_image_with_dots(dots, current_dot=None, dot_size=6)`
(src/deep.py:34-43): copy the base image, draw a red disc of radius
`dot_size // 2` at each committed dot, then, if a current dot is supplied,
one blue disc at its position. -/
def get_image_with_dots (base : Image) (dots : List Point)
    (current_dot : Option Point) (dot_size : Nat) : Image :=
  let r := dot_size / 2
  let img := dots.foldl (fun im p => drawDisk im p r red) base
  match current_dot with
  | some cd => drawDisk img cd r blue
  | none => img

/-- PNG byte buffer captured from a rendered image (src/deep.py:57-59),
modelled by the image content it encodes. -/
structure PNGBuffer where
  content : Image

/-- Model of `entry_image.save(img_io, format="PNG"); img_io.getvalue()`. -/
def pngEncode (img : Image) : PNGBuffer := ⟨img⟩

/-- Saved entry: the tuple `(date, label, img_bytes, dot_size)` appended at
src/deep.py:62. -/
structure Entry where
  date : String
  label : String
  img_bytes : PNGBuffer
  dot_size : Nat

/-- Session state: `st.session_state.dots` and `st.session_state.entries`
(src/deep.py:28-31). -/
structure AppState where
  dots : List Point
  entries : List Entry

/-- Initial session state: both lists empty (src/deep.py:28-31). -/
def initState : AppState := ⟨[], []⟩

/-- User-visible notifications emitted by the handlers. -/
inductive Msg where
  | warnNoImage
  | errLoad (file : String)
  | successSaved
  | warnSaveInvalid
deriving DecidableEq

/-- Add Dot button handler (src/deep.py:98-100): append the slider point to
the pending list. -/
def addPendingPoint (p : Point) (s : AppState) : AppState :=
  { s with dots := s.dots ++ [p] }

/-- Undo Last Dot button handler (src/deep.py:68-70): `dots.pop()` removes the
most recently appended point; nothing happens when the list is empty. -/
def undoLastPoint (s : AppState) : AppState :=
  if s.dots = [] then s else { s with dots := s.dots.dropLast }

/-- Clear All Dots button handler (src/deep.py:72-73): `dots.clear()`. -/
def clearPending (s : AppState) : AppState := { s with dots := [] }

/-- Save Entry button handler (src/deep.py:51-66): when the label and the
pending list are both non-empty (Python truthiness of `label and dots`),
render the pending dots with no preview point, append the entry tuple and
clear the pending list, reporting success; otherwise reject with a warning
and leave the state untouched. -/
def saveEntry (base : Image) (date label : String) (dot_size : Nat)
    (s : AppState) : AppState × Msg :=
  if label ≠ "" ∧ s.dots ≠ [] then
    ({ dots := [],
       entries := s.entries ++
         [⟨date, label, pngEncode (get_image_with_dots base s.dots none dot_size),
           dot_size⟩] },
     Msg.successSaved)
  else (s, Msg.warnSaveInvalid)

/-- Delete button handler (src/deep.py:127-129): `entries.pop(i)` removes the
entry at position `i`. -/
def deleteEntry (i : Nat) (s : AppState) : AppState :=
  { s with entries := s.entries.eraseIdx i }

/-- Main-area render call (src/deep.py:93): read the session state, produce
the composited image with the blue preview dot, and leave the state as it
was. -/
def renderStep (base : Image) (s : AppState) (preview : Point)
    (dot_size : Nat) : Image × AppState :=
  (get_image_with_dots base s.dots (some preview) dot_size, s)

/-- Model of `csv.writer(csv_io).writerow(row)`: emit one row at the end of
the buffer (src/deep.py:136-139). -/
def writerow (rows : List (List String)) (row : List String) :
    List (List String) :=
  rows ++ [row]

/-- Prepare CSV button handler (src/deep.py:134-139): write the header row,
then one `[date, label, str(size)]` row per entry, iterating the entry list
in order. -/
def prepareCSV (entries : List Entry) : List (List String) :=
  entries.foldl (fun acc e => writerow acc [e.date, e.label, toString e.dot_size])
    (writerow [] ["Date", "Label", "Dot Size"])

/-- Containment test for the Python membership test `sub in s`, on character
lists. -/
def containsSub (sub : List Char) : List Char → Bool
  | [] => sub.isEmpty
  | c :: rest => sub.isPrefixOf (c :: rest) || containsSub sub rest

/-- Filename filter `f.lower().endswith((".jpg", ".jpeg", ".png"))`
(src/deep.py:14). -/
def isImageFile (f : String) : Bool :=
  let l := f.data.map Char.toLower
  ".jpg".data.isSuffixOf l || ".jpeg".data.isSuffixOf l ||
    ".png".data.isSuffixOf l

/-- Filename filter `"human" in f.lower() or "body" in f.lower()`
(src/deep.py:15). -/
def hasBodyHint (f : String) : Bool :=
  let l := f.data.map Char.toLower
  containsSub "human".data l || containsSub "body".data l

/-- Image Loader `load_body_image()` (src/deep.py:13-23). The directory
listing is the `files` parameter; `Image.open(...).convert("RGBA")` is the
`decode` parameter, `none` standing for a decode exception. When a candidate
exists the try block returns the decoded image, and on an exception the
except branch reports the error and the function falls through, returning
`None`; only when no candidate exists does the else branch warn and return
the blank 500 by 800 white canvas. -/
def load_body_image (files : List String) (decode : String → Option Image) :
    Option Image × List Msg :=
  let image_files := files.filter isImageFile
  let body_images := image_files.filter hasBodyHint
  match body_images with
  | f :: _ =>
    match decode f with
    | some img => (some img, [])
    | none => (none, [Msg.errLoad f])
  | [] => (some (Image.new 500 800 white), [Msg.warnNoImage])

/-- UI actions that mutate the Marker Store. -/
inductive Op where
  | addDot (p : Point)
  | undoDot
  | clearDots
  | save (date label : String) (dot_size : Nat)
  | delete (i : Nat)

/-- Effect of one UI action on the session state. -/
def step (base : Image) (s : AppState) : Op → AppState
  | Op.addDot p => addPendingPoint p s
  | Op.undoDot => undoLastPoint s
  | Op.clearDots => clearPending s
  | Op.save d l ds => (saveEntry base d l ds s).1
  | Op.delete i => deleteEntry i s

/-- Run a sequence of UI actions from a state. -/
def run (base : Image) (s : AppState) (ops : List Op) : AppState :=
  ops.foldl (step base) s

/-- The centre of a disc lies in the disc. -/
theorem inDisk_center (c : Point) (r : Nat) : inDisk c r c := by
  unfold inDisk dist2
  simp

/-- Drawing a disc does not change the canvas width. -/
theorem drawDisk_width (img : Image) (c : Point) (r : Nat) (col : Color) :
    (drawDisk img c r col).width = img.width := rfl

/-- Drawing a disc does not change the canvas height. -/
theorem drawDisk_height (img : Image) (c : Point) (r : Nat) (col : Color) :
    (drawDisk img c r col).height = img.height := rfl

/-- Folding disc draws over a dot list does not change the canvas width. -/
theorem foldl_drawDisk_width (dots : List Point) (r : Nat) (col : Color)
    (img : Image) :
    (dots.foldl (fun im p => drawDisk im p r col) img).width = img.width := by
  induction dots generalizing img with
  | nil => rfl
  | cons p ps ih => simpa using ih (drawDisk img p r col)

/-- Folding disc draws over a dot list does not change the canvas height. -/
theorem foldl_drawDisk_height (dots : List Point) (r : Nat) (col : Color)
    (img : Image) :
    (dots.foldl (fun im p => drawDisk im p r col) img).height = img.height := by
  induction dots generalizing img with
  | nil => rfl
  | cons p ps ih => simpa using ih (drawDisk img p r col)

/-- A pixel lying in none of the drawn discs keeps its value. -/
theorem foldl_drawDisk_pix_of_not_mem (dots : List Point) (r : Nat)
    (col : Color) (img : Image) (q : Point)
    (h : ∀ p ∈ dots, ¬ inDisk p r q) :
    (dots.foldl (fun im pt => drawDisk im pt r col) img).pix q.1 q.2 =
      img.pix q.1 q.2 := by
  induction dots generalizing img with
  | nil => rfl
  | cons p ps ih =>
    rw [List.foldl_cons,
      ih (drawDisk img p r col) (fun x hx => h x (List.mem_cons_of_mem _ hx))]
    show (if q.1 < img.width ∧ q.2 < img.height ∧ inDisk p r (q.1, q.2)
        then col else img.pix q.1 q.2) = img.pix q.1 q.2
    rw [if_neg]
    rintro ⟨-, -, hd⟩
    exact h p (List.mem_cons_self p ps) hd

/-- A pixel changed by the disc draws lies in one of the discs. -/
theorem foldl_drawDisk_changed (dots : List Point) (r : Nat) (col : Color)
    (img : Image) (q : Point)
    (h : (dots.foldl (fun im pt => drawDisk im pt r col) img).pix q.1 q.2 ≠
      img.pix q.1 q.2) :
    ∃ p ∈ dots, inDisk p r q := by
  by_contra hc
  push_neg at hc
  exact h (foldl_drawDisk_pix_of_not_mem dots r col img q hc)

/-- A pixel already holding the fill colour still holds it after the disc
draws. -/
theorem foldl_drawDisk_pix_col (dots : List Point) (r : Nat) (col : Color)
    (img : Image) (q : Point) (h : img.pix q.1 q.2 = col) :
    (dots.foldl (fun im pt => drawDisk im pt r col) img).pix q.1 q.2 = col := by
  induction dots generalizing img with
  | nil => exact h
  | cons p ps ih =>
    rw [List.foldl_cons]
    apply ih
    show (if q.1 < img.width ∧ q.2 < img.height ∧ inDisk p r (q.1, q.2)
        then col else img.pix q.1 q.2) = col
    split
    · rfl
    · exact h

/-- After the disc draws, the pixel at each in-bounds dot holds the fill
colour. -/
theorem foldl_drawDisk_center (dots : List Point) (r : Nat) (col : Color)
    (img : Image) (q : Point) (hq : q ∈ dots) (hx : q.1 < img.width)
    (hy : q.2 < img.height) :
    (dots.foldl (fun im pt => drawDisk im pt r col) img).pix q.1 q.2 = col := by
  induction dots generalizing img with
  | nil => cases hq
  | cons p ps ih =>
    rw [List.foldl_cons]
    rcases List.mem_cons.mp hq with h | h
    · subst h
      apply foldl_drawDisk_pix_col
      show (if q.1 < img.width ∧ q.2 < img.height ∧ inDisk q r (q.1, q.2)
          then col else img.pix q.1 q.2) = col
      rw [if_pos ⟨hx, hy, inDisk_center q r⟩]
    · exact ih (drawDisk img p r col) h hx hy

/-- The radius drawn for a dot size never exceeds the dot size itself, after
squaring over the integers. -/
theorem sq_half_le_sq (ds : Nat) :
    ((ds / 2 : Nat) : Int) ^ 2 ≤ (ds : Int) ^ 2 := by
  have h : ((ds / 2 : Nat) : Int) ≤ (ds : Int) := by
    exact_mod_cast Nat.div_le_self ds 2
  have h0 : (0 : Int) ≤ ((ds / 2 : Nat) : Int) := by positivity
  exact pow_le_pow_left₀ h0 h 2

/-- C1: with a non-empty label and a non-empty pending set, saveEntry appends
exactly one entry (timestamp, label, PNG of the pending set rendered at the
given dot size with no preview point, dot size) at the end of the entry list,
increasing its length by exactly 1, and resets the pending set to empty. -/
theorem saveEntry_valid (base : Image) (date label : String) (ds : Nat)
    (s : AppState) (hl : label ≠ "") (hd : s.dots ≠ []) :
    (saveEntry base date label ds s).1.entries =
      s.entries ++
        [⟨date, label, pngEncode (get_image_with_dots base s.dots none ds), ds⟩] ∧
    (saveEntry base date label ds s).1.entries.length = s.entries.length + 1 ∧
    (saveEntry base date label ds s).1.dots = [] := by
  unfold saveEntry
  rw [if_pos ⟨hl, hd⟩]
  refine ⟨rfl, ?_, rfl⟩
  simp

/-- Witness for C1 at a concrete valid save. -/
theorem saveEntry_valid_witness :
    (saveEntry (Image.new 500 800 white) "2026-01-01 00:00:00" "Scar" 6
        ⟨[(10, 10), (20, 20)], []⟩).1.entries =
      ([] : List Entry) ++
        [⟨"2026-01-01 00:00:00", "Scar",
          pngEncode (get_image_with_dots (Image.new 500 800 white)
            [(10, 10), (20, 20)] none 6), 6⟩] ∧
    (saveEntry (Image.new 500 800 white) "2026-01-01 00:00:00" "Scar" 6
        ⟨[(10, 10), (20, 20)], []⟩).1.entries.length =
      ([] : List Entry).length + 1 ∧
    (saveEntry (Image.new 500 800 white) "2026-01-01 00:00:00" "Scar" 6
        ⟨[(10, 10), (20, 20)], []⟩).1.dots = [] :=
  saveEntry_valid (Image.new 500 800 white) "2026-01-01 00:00:00" "Scar" 6
    ⟨[(10, 10), (20, 20)], []⟩ (by decide) (by decide)

/-- C2: with an empty label or an empty pending set, saveEntry reports a
warning and changes nothing: the resulting state is exactly the input state. -/
theorem saveEntry_invalid (base : Image) (date label : String) (ds : Nat)
    (s : AppState) (h : label = "" ∨ s.dots = []) :
    saveEntry base date label ds s = (s, Msg.warnSaveInvalid) := by
  unfold saveEntry
  rw [if_neg]
  rintro ⟨hl, hd⟩
  rcases h with h | h
  · exact hl h
  · exact hd h

/-- Witness for C2 at a concrete rejected save (empty label). -/
theorem saveEntry_invalid_witness :
    saveEntry (Image.new 500 800 white) "2026-01-01 00:00:00" "" 6
        ⟨[(1, 1)], []⟩ =
      (⟨[(1, 1)], []⟩, Msg.warnSaveInvalid) :=
  saveEntry_invalid (Image.new 500 800 white) "2026-01-01 00:00:00" "" 6
    ⟨[(1, 1)], []⟩ (Or.inl rfl)

/-- C5: undoLastPoint undoes addPendingPoint exactly, and undoLastPoint on an
empty pending set changes nothing. -/
theorem undo_add (s : AppState) (p : Point) :
    undoLastPoint (addPendingPoint p s) = s ∧
    (s.dots = [] → undoLastPoint s = s) := by
  constructor
  · obtain ⟨d, e⟩ := s
    unfold addPendingPoint undoLastPoint
    simp
  · intro h
    unfold undoLastPoint
    rw [if_pos h]

/-- Witness for C5 at a concrete state, including the empty no-op case. -/
theorem undo_add_witness :
    undoLastPoint (addPendingPoint (5, 7) ⟨[(1, 2)], []⟩) = ⟨[(1, 2)], []⟩ ∧
    undoLastPoint ⟨[], []⟩ = ⟨[], []⟩ :=
  ⟨(undo_add ⟨[(1, 2)], []⟩ (5, 7)).1, (undo_add ⟨[], []⟩ (5, 7)).2 rfl⟩

/-- C6: deleteEntry at a valid index removes exactly the entry at that
position: the length drops by exactly 1, the remaining entries are a sublist
of the original list (relative save order preserved), entries before the
index keep their position and entries after it shift down by one. -/
theorem deleteEntry_spec (s : AppState) (i : Nat) (hi : i < s.entries.length) :
    (deleteEntry i s).entries.length + 1 = s.entries.length ∧
    (deleteEntry i s).entries.Sublist s.entries ∧
    (∀ j, j < i → (deleteEntry i s).entries[j]? = s.entries[j]?) ∧
    (∀ j, i ≤ j → (deleteEntry i s).entries[j]? = s.entries[j + 1]?) := by
  refine ⟨?_, ?_, ?_, ?_⟩
  · show (s.entries.eraseIdx i).length + 1 = s.entries.length
    rw [List.length_eraseIdx, if_pos hi]
    omega
  · exact List.eraseIdx_sublist s.entries i
  · intro j hj
    show (s.entries.eraseIdx i)[j]? = s.entries[j]?
    rw [List.getElem?_eraseIdx, if_pos hj]
  · intro j hj
    show (s.entries.eraseIdx i)[j]? = s.entries[j + 1]?
    rw [List.getElem?_eraseIdx, if_neg (by omega)]

/-- Entry used in concrete witnesses. -/
def sampleEntryA : Entry :=
  ⟨"2026-01-01 00:00:00", "A", pngEncode (Image.new 1 1 white), 3⟩

/-- Second entry used in concrete witnesses. -/
def sampleEntryB : Entry :=
  ⟨"2026-01-02 00:00:00", "B", pngEncode (Image.new 1 1 white), 4⟩

/-- Witness for C6: deleting index 0 from a two-entry list shortens it to one
entry and shifts the second entry to index 0. -/
theorem deleteEntry_spec_witness :
    (deleteEntry 0 ⟨[], [sampleEntryA, sampleEntryB]⟩).entries.length + 1 =
      ([sampleEntryA, sampleEntryB] : List Entry).length ∧
    (deleteEntry 0 ⟨[], [sampleEntryA, sampleEntryB]⟩).entries[0]? =
      ([sampleEntryA, sampleEntryB] : List Entry)[0 + 1]? :=
  ⟨(deleteEntry_spec ⟨[], [sampleEntryA, sampleEntryB]⟩ 0 (by simp)).1,
   (deleteEntry_spec ⟨[], [sampleEntryA, sampleEntryB]⟩ 0 (by simp)).2.2.2 0
     (Nat.le_refl 0)⟩

/-- C10: each Marker Store operation mutates only its own list:
addPendingPoint, undoLastPoint and clearPending leave the entry list (hence
every stored entry) unchanged, and deleteEntry leaves the pending set
unchanged. -/
theorem frame_effects (s : AppState) (p : Point) (i : Nat) :
    (addPendingPoint p s).entries = s.entries ∧
    (undoLastPoint s).entries = s.entries ∧
    (clearPending s).entries = s.entries ∧
    (deleteEntry i s).dots = s.dots := by
  refine ⟨rfl, ?_, rfl, rfl⟩
  unfold undoLastPoint
  split <;> rfl

/-- C4: rendering the pending dots with no preview point marks each committed
dot and nothing else: for every placed in-bounds point whose base pixel is
not already the dot colour, some pixel within the dot size of that point
differs from the base image, and every pixel that differs from the base
image lies within the dot size of some placed point (distances compared by
their squares). -/
theorem render_dots_soundness (base : Image) (dots : List Point) (ds : Nat) :
    (∀ p ∈ dots, p.1 < base.width → p.2 < base.height →
      base.pix p.1 p.2 ≠ red →
      ∃ q : Point, dist2 q p ≤ (ds : Int) ^ 2 ∧
        (get_image_with_dots base dots none ds).pix q.1 q.2 ≠
          base.pix q.1 q.2) ∧
    (∀ q : Point,
      (get_image_with_dots base dots none ds).pix q.1 q.2 ≠ base.pix q.1 q.2 →
      ∃ p ∈ dots, dist2 q p ≤ (ds : Int) ^ 2) := by
  have hrender : get_image_with_dots base dots none ds =
      dots.foldl (fun im pt => drawDisk im pt (ds / 2) red) base := rfl
  constructor
  · intro p hp hx hy hred
    refine ⟨p, ?_, ?_⟩
    · have h0 : dist2 p p = 0 := by unfold dist2; simp
      rw [h0]
      positivity
    · rw [hrender, foldl_drawDisk_center dots (ds / 2) red base p hp hx hy]
      exact fun h => hred h.symm
  · intro q hq
    rw [hrender] at hq
    obtain ⟨p, hp, hd⟩ := foldl_drawDisk_changed dots (ds / 2) red base q hq
    exact ⟨p, hp, le_trans hd (sq_half_le_sq ds)⟩

/-- Witness for C4: on the blank canvas with one dot at (10, 10) and dot size
6, some pixel within the dot size of (10, 10) differs from the canvas. -/
theorem render_dots_soundness_witness :
    ∃ q : Point, dist2 q (10, 10) ≤ (6 : Int) ^ 2 ∧
      (get_image_with_dots (Image.new 500 800 white) [(10, 10)]
          none 6).pix q.1 q.2 ≠
        (Image.new 500 800 white).pix q.1 q.2 :=
  (render_dots_soundness (Image.new 500 800 white) [(10, 10)] 6).1 (10, 10)
    (by decide) (by decide) (by decide) (by decide)

/-- C8: the renderer is a pure function of its inputs: the main-area render
returns the session state unchanged (so the pending set is untouched and the
preview point is never added to it), the output canvas has exactly the
dimensions of the base image (the draw happens on a copy), and equal inputs
yield equal outputs. -/
theorem render_pure (base : Image) (s : AppState) (preview : Point)
    (ds : Nat) :
    (renderStep base s preview ds).2 = s ∧
    (renderStep base s preview ds).2.dots = s.dots ∧
    (get_image_with_dots base s.dots (some preview) ds).width = base.width ∧
    (get_image_with_dots base s.dots (some preview) ds).height = base.height ∧
    (∀ b2 d2 c2 r2, base = b2 → s.dots = d2 →
      (some preview : Option Point) = c2 → ds = r2 →
      get_image_with_dots base s.dots (some preview) ds =
        get_image_with_dots b2 d2 c2 r2) := by
  refine ⟨rfl, rfl, ?_, ?_, ?_⟩
  · show (drawDisk (s.dots.foldl (fun im pt => drawDisk im pt (ds / 2) red)
        base) preview (ds / 2) blue).width = base.width
    rw [drawDisk_width, foldl_drawDisk_width]
  · show (drawDisk (s.dots.foldl (fun im pt => drawDisk im pt (ds / 2) red)
        base) preview (ds / 2) blue).height = base.height
    rw [drawDisk_height, foldl_drawDisk_height]
  · intro b2 d2 c2 r2 h1 h2 h3 h4
    subst h1
    subst h2
    subst h3
    subst h4
    rfl

/-- Witness for C8 at a concrete state and preview point. -/
theorem render_pure_witness :
    (renderStep (Image.new 500 800 white) ⟨[(1, 2)], []⟩ (3, 4) 6).2 =
      (⟨[(1, 2)], []⟩ : AppState) ∧
    get_image_with_dots (Image.new 500 800 white) [(1, 2)] (some (3, 4)) 6 =
      get_image_with_dots (Image.new 500 800 white) [(1, 2)] (some (3, 4)) 6 :=
  ⟨(render_pure (Image.new 500 800 white) ⟨[(1, 2)], []⟩ (3, 4) 6).1,
   (render_pure (Image.new 500 800 white) ⟨[(1, 2)], []⟩ (3, 4) 6).2.2.2.2
     (Image.new 500 800 white) [(1, 2)] (some (3, 4)) 6 rfl rfl rfl rfl⟩

/-- Writing the entry rows folds to the accumulated rows followed by one row
per entry, in order. -/
theorem foldl_writerow (l : List Entry) (acc : List (List String)) :
    l.foldl (fun a e => writerow a [e.date, e.label, toString e.dot_size])
        acc =
      acc ++ l.map (fun e => [e.date, e.label, toString e.dot_size]) := by
  induction l generalizing acc with
  | nil => simp
  | cons e es ih =>
    rw [List.foldl_cons, ih (writerow acc [e.date, e.label, toString e.dot_size])]
    simp [writerow]

/-- C7: the CSV export is exactly the header row Date, Label, Dot Size
followed by one (timestamp, label, dot size) row per entry in save order;
no row carries coordinates. -/
theorem prepareCSV_spec (entries : List Entry) :
    prepareCSV entries =
      ["Date", "Label", "Dot Size"] ::
        entries.map (fun e => [e.date, e.label, toString e.dot_size]) := by
  unfold prepareCSV
  rw [foldl_writerow]
  simp [writerow]

/-- One UI action preserves the invariant that every stored entry carries a
non-empty label: saveEntry only appends under its guard and no other action
modifies an existing entry. -/
theorem step_label_invariant (base : Image) (s : AppState) (op : Op)
    (hs : ∀ e ∈ s.entries, e.label ≠ "") :
    ∀ e ∈ (step base s op).entries, e.label ≠ "" := by
  cases op with
  | addDot p => exact hs
  | undoDot =>
    simp only [step, undoLastPoint]
    split
    · exact hs
    · exact hs
  | clearDots => exact hs
  | delete i =>
    intro e he
    exact hs e ((List.eraseIdx_sublist s.entries i).subset he)
  | save d l ds =>
    simp only [step, saveEntry]
    split
    · rename_i h
      intro e he
      simp only [List.mem_append, List.mem_singleton] at he
      rcases he with he | he
      · exact hs e he
      · subst he
        exact h.1
    · exact hs

/-- Running any action sequence preserves the non-empty-label invariant. -/
theorem run_label_invariant (base : Image) (ops : List Op) (s : AppState)
    (hs : ∀ e ∈ s.entries, e.label ≠ "") :
    ∀ e ∈ (run base s ops).entries, e.label ≠ "" := by
  induction ops generalizing s with
  | nil => exact hs
  | cons op rest ih =>
    exact ih (step base s op) (step_label_invariant base s op hs)

/-- C9: in every state reachable from the initial state by Marker Store
actions, every stored entry has a non-empty label. -/
theorem entries_labels_nonempty (base : Image) (ops : List Op) (e : Entry)
    (he : e ∈ (run base initState ops).entries) : e.label ≠ "" :=
  run_label_invariant base ops initState (by intro x hx; cases hx) e he

/-- Witness for C9: the entry produced by adding one dot and saving it under
the label Scar has a non-empty label. -/
theorem entries_labels_nonempty_witness :
    (⟨"2026-01-01 00:00:00", "Scar",
      pngEncode (get_image_with_dots (Image.new 500 800 white) [(1, 2)]
        none 6), 6⟩ : Entry).label ≠ "" :=
  entries_labels_nonempty (Image.new 500 800 white)
    [Op.addDot (1, 2), Op.save "2026-01-01 00:00:00" "Scar" 6] _
    (by simp [run, step, addPendingPoint, saveEntry, initState])

/-- C3 counterexample: with exactly one candidate file that fails to decode,
the loader reports the error but returns no image at all; it does not return
the blank 500 by 800 white canvas. -/
theorem load_body_image_decode_failure :
    (load_body_image ["body.png"] (fun _ => none)).1 = none ∧
    (load_body_image ["body.png"] (fun _ => none)).1 ≠
      some (Image.new 500 800 white) := by
  refine ⟨rfl, ?_⟩
  intro h
  exact Option.noConfusion h

/-- C3 amended: when no candidate file exists, the loader warns and returns
the blank white 500 by 800 canvas, and the program continues; when a
candidate file exists but fails to decode, the loader reports an error for
that file and returns no image. -/
theorem load_body_image_spec (files : List String)
    (decode : String → Option Image) :
    ((files.filter isImageFile).filter hasBodyHint = [] →
      load_body_image files decode =
        (some (Image.new 500 800 white), [Msg.warnNoImage])) ∧
    (∀ f rest, (files.filter isImageFile).filter hasBodyHint = f :: rest →
      decode f = none →
      load_body_image files decode = (none, [Msg.errLoad f])) := by
  constructor
  · intro h
    simp only [load_body_image, h]
  · intro f rest h hd
    simp only [load_body_image, h, hd]

/-- Witness for C3 amended: an empty directory yields the blank canvas with
a warning, and a failing decode of body.png yields no image with an error. -/
theorem load_body_image_spec_witness :
    load_body_image [] (fun _ => none) =
      (some (Image.new 500 800 white), [Msg.warnNoImage]) ∧
    load_body_image ["body.png"] (fun _ => none) =
      (none, [Msg.errLoad "body.png"]) :=
  ⟨(load_body_image_spec [] (fun _ => none)).1 rfl,
   (load_body_image_spec ["body.png"] (fun _ => none)).2 "body.png" []
     (by decide) rfl⟩

end BodyMark
